import Mathlib

/-
  Verification development for the output-management and frame-compositing
  core of the Cage kiosk compositor (src/output.c).

  The C code is shallowly embedded: the per-tick frame handler and the
  per-surface render step are pure functions producing a trace of backend
  events; the output lifecycle (device attach / removal) is a step function
  on an explicit server state.  External wlroots collaborators (output
  layout, xdg surface traversal, mode setting) are modelled by the narrow
  contracts the code consumes them through.
-/

namespace Cage

/-- C truncation toward zero, as performed by the implicit `double` to `int`
conversion when the box fields are initialised. -/
def cTrunc (q : ℚ) : Int := if 0 ≤ q then ⌊q⌋ else ⌈q⌉

/-- A drawable surface (`struct wlr_surface`): identity, whether a buffer has
been committed, the optionally-uploaded texture, and the committed size. -/
structure Surface where
  id : Nat
  hasBuffer : Bool
  texture : Option Nat
  width : Int
  height : Int
deriving DecidableEq

/-- The `struct wlr_box` rectangle: the integer placement rectangle. -/
structure WlrBox where
  x : Int
  y : Int
  width : Int
  height : Int
deriving DecidableEq

/-- Observable backend effects issued while handling one refresh tick. -/
inductive RenderEvent where
  | logDebug (msg : String)
  | logError (msg : String)
  | rendererBegin (width height : Int)
  | clear (r g b a : ℚ)
  | draw (texture : Nat) (box : WlrBox)
  | frameDone (sid : Nat) (whenTs : Int)
  | rendererEnd
  | swapBuffers
deriving DecidableEq

/-- The `struct render_data` record: everything `render_surface` reads from its closure
argument.  `layoutX`/`layoutY` is the output's origin resolved within the
shared layout (the `wlr_output_layout_output_coords` contract), `scale` is
`output->scale`, `viewX`/`viewY` is the view position, `whenTs` the tick
timestamp. -/
structure RenderData where
  layoutX : Int
  layoutY : Int
  scale : ℚ
  viewX : Int
  viewY : Int
  whenTs : Int
deriving DecidableEq

/-- Embedding of `render_surface`: skip without any signal if the surface has no committed
buffer; log and skip if no texture can be obtained; otherwise compute the
scaled placement box, draw, and send frame-done with the tick timestamp. -/
def render_surface (rdata : RenderData) (surface : Surface) (sx sy : Int) :
    List RenderEvent :=
  if surface.hasBuffer = false then
    []
  else
    match surface.texture with
    | none => [.logDebug "Cannot obtain surface texture"]
    | some texture =>
      let ox : Int := rdata.layoutX + rdata.viewX + sx
      let oy : Int := rdata.layoutY + rdata.viewY + sy
      let box : WlrBox :=
        { x := cTrunc ((ox : ℚ) * rdata.scale)
          y := cTrunc ((oy : ℚ) * rdata.scale)
          width := cTrunc ((surface.width : ℚ) * rdata.scale)
          height := cTrunc ((surface.height : ℚ) * rdata.scale) }
      [.draw texture box, .frameDone surface.id rdata.whenTs]

/-- The drawable-surface tree of an xdg surface: each node carries its offset
relative to its parent.  Models the tree that
`wlr_xdg_surface_for_each_surface` traverses. -/
inductive SurfaceTree where
  | node (dx dy : Int) (surface : Surface) (children : List SurfaceTree)

mutual

/-- Modelled from the spec: `wlr_xdg_surface_for_each_surface` lives in
wlroots; per the SurfaceWalker contract it recursively visits every drawable
surface of the tree, passing each surface's accumulated offset relative to
the root. -/
def SurfaceTree.enum : SurfaceTree → Int → Int → List (Surface × Int × Int)
  | .node dx dy s children, ox, oy =>
    (s, ox + dx, oy + dy) :: enumChildren children (ox + dx) (oy + dy)

def enumChildren : List SurfaceTree → Int → Int → List (Surface × Int × Int)
  | [], _, _ => []
  | t :: rest, ox, oy => t.enum ox oy ++ enumChildren rest ox oy

end

mutual

/-- All surfaces belonging to a surface tree. -/
def SurfaceTree.surfaces : SurfaceTree → List Surface
  | .node _ _ s children => s :: surfacesList children

def surfacesList : List SurfaceTree → List Surface
  | [] => []
  | t :: rest => t.surfaces ++ surfacesList rest

end

/-- The content-item variant tag (`view->type`); C enums admit unlisted
values, modelled by the `other` case. -/
inductive ViewType where
  | xdgShell
  | other (tag : Int)
deriving DecidableEq

/-- The `struct cg_view` record: position in layout coordinates, content-item variant,
and the drawable surface tree handle. -/
structure CgView where
  x : Int
  y : Int
  type : ViewType
  xdgSurface : SurfaceTree

/-- Embedding of `view_for_each_surface`: dispatch on the content-item variant; the xdg
case walks the surface tree with the iterator, any other tag logs an
error-level diagnostic and performs no visits. -/
def view_for_each_surface (view : CgView)
    (iterator : Surface → Int → Int → List RenderEvent) : List RenderEvent :=
  match view.type with
  | .xdgShell => (view.xdgSurface.enum 0 0).flatMap fun y => iterator y.1 y.2.1 y.2.2
  | .other _ => [.logError "Unrecognized view type"]

/-- Per-tick environment: whether the backend lets the rendering context be
made current, the CLOCK_MONOTONIC reading, and the effective resolution. -/
structure FrameEnv where
  makeCurrentOk : Bool
  now : Int
  effWidth : Int
  effHeight : Int
deriving DecidableEq

/-- The `render_data` record built by the frame handler for one view. -/
def mkRenderData (env : FrameEnv) (layoutX layoutY : Int) (scale : ℚ)
    (view : CgView) : RenderData :=
  { layoutX := layoutX, layoutY := layoutY, scale := scale,
    viewX := view.x, viewY := view.y, whenTs := env.now }

/-- Embedding of `handle_output_frame`: abort the tick if the context cannot be made
current; otherwise begin a pass at the effective resolution, clear to the
fixed gray, walk the view list in reverse (`wl_list_for_each_reverse`)
rendering every surface of every view, end the pass and swap buffers.
`views` is the server's view list, head = most recently inserted. -/
def handle_output_frame (env : FrameEnv) (layoutX layoutY : Int) (scale : ℚ)
    (views : List CgView) : List RenderEvent :=
  if env.makeCurrentOk = false then
    [.logDebug "Cannot make damage output current"]
  else
    .rendererBegin env.effWidth env.effHeight ::
    .clear (3/10) (3/10) (3/10) 1 ::
    ((views.reverse.flatMap fun view =>
      view_for_each_surface view
        (render_surface (mkRenderData env layoutX layoutY scale view)))
     ++ [.rendererEnd, .swapBuffers])

/-- A display mode advertised by the device. -/
structure Mode where
  width : Int
  height : Int
deriving DecidableEq

/-- The `struct wlr_output` device: the backend device handle with its advertised modes,
scale, dimensions, and currently-set mode. -/
structure Device where
  modes : List Mode
  scale : ℚ
  width : Int
  height : Int
  currentMode : Option Mode
deriving DecidableEq

/-- Modelled from the spec: `wlr_output_set_mode` lives in wlroots; per the
backend contract it makes the given mode current and updates the device's
dimensions accordingly. -/
def setMode (d : Device) (m : Mode) : Device :=
  { d with currentMode := some m, width := m.width, height := m.height }

/-- The `struct cg_output` record: the single output record, holding the device. -/
structure CgOutput where
  wlrOutput : Device
deriving DecidableEq

/-- Server state relevant to the output lifecycle: whether the new-output
listener is still linked, the optional output record, whether the output's
frame/destroy listeners are linked into the device's signals, how often
`wl_display_terminate` was called, the layout registration count, the cursor
position, and how many output records were ever allocated. -/
structure ServerState where
  newOutputSubscribed : Bool
  output : Option CgOutput
  frameSubscribed : Bool
  destroySubscribed : Bool
  terminations : Nat
  layoutCount : Nat
  cursorX : Int
  cursorY : Int
  createdOutputs : Nat
deriving DecidableEq

/-- The server before any device attaches: subscribed to new-output
notifications, no output. -/
def initialState : ServerState :=
  { newOutputSubscribed := true, output := none, frameSubscribed := false,
    destroySubscribed := false, terminations := 0, layoutCount := 0,
    cursorX := 0, cursorY := 0, createdOutputs := 0 }

/-- Embedding of `handle_new_output`: if the device advertises modes, set the last one;
allocate the output record, subscribe its frame and destroy listeners,
register the device with the layout, unlink the server's new-output
listener, and warp the cursor to the device center. -/
def handle_new_output (s : ServerState) (d : Device) : ServerState :=
  let d2 := match d.modes.getLast? with
    | some m => setMode d m
    | none => d
  { s with
    output := some { wlrOutput := d2 }
    createdOutputs := s.createdOutputs + 1
    frameSubscribed := true
    destroySubscribed := true
    layoutCount := s.layoutCount + 1
    newOutputSubscribed := false
    cursorX := d2.width / 2
    cursorY := d2.height / 2 }

/-- Embedding of `handle_output_destroy`: unlink both listeners, free the record, clear
the server's output reference, and terminate the event loop. -/
def handle_output_destroy (s : ServerState) : ServerState :=
  { s with destroySubscribed := false, frameSubscribed := false,
           output := none, terminations := s.terminations + 1 }

/-- Backend-delivered lifecycle notifications. -/
inductive LifeEvent where
  | attach (d : Device)
  | frame
  | removed
deriving DecidableEq

/-- Signal delivery: a handler runs only while its listener is linked into
the corresponding signal list.  The frame handler renders but does not touch
lifecycle state. -/
def step (s : ServerState) (e : LifeEvent) : ServerState :=
  match e with
  | .attach d => if s.newOutputSubscribed then handle_new_output s d else s
  | .frame => s
  | .removed => if s.destroySubscribed then handle_output_destroy s else s

/-- Run a sequence of delivered notifications. -/
def run (s : ServerState) (es : List LifeEvent) : ServerState := es.foldl step s

/-- Modelled from the spec: view insertion lives in the view-management
collaborator (outside src/); per its contract the stack is exposed
newest-first, so a newly inserted view goes to the head. -/
def insertView (v : CgView) (stack : List CgView) : List CgView := v :: stack

/-- The view stack obtained by inserting the given views in order. -/
def stackOf (inserts : List CgView) : List CgView :=
  inserts.foldl (fun st v => insertView v st) []

/-- Does this event deliver frame-done to surface `sid`? -/
def isFrameDoneFor (sid : Nat) (e : RenderEvent) : Bool :=
  match e with
  | .frameDone s _ => s == sid
  | _ => false

/-- Number of frame-done signals delivered to surface `sid` in a trace. -/
def countFrameDone (trace : List RenderEvent) (sid : Nat) : Nat :=
  trace.countP (isFrameDoneFor sid)

/-- A surface that will actually be drawn: committed buffer and obtainable
texture. -/
def drawable (s : Surface) : Bool := s.hasBuffer && s.texture.isSome

/-- The surfaces (with offsets) the walk yields for one view. -/
def viewYields (v : CgView) : List (Surface × Int × Int) :=
  match v.type with
  | .xdgShell => v.xdgSurface.enum 0 0
  | .other _ => []

/-- All surfaces yielded during one tick, in paint order. -/
def allYields (views : List CgView) : List (Surface × Int × Int) :=
  views.reverse.flatMap viewYields

/-- A yielded surface that has identity `sid` and will actually be drawn. -/
def drawableWithId (sid : Nat) (y : Surface × Int × Int) : Bool :=
  (y.1.id == sid) && drawable y.1

/-- Fixture: a 1920×1080 device advertising a 720p mode then a 1080p mode. -/
def devA : Device :=
  { modes := [{ width := 1280, height := 720 }, { width := 1920, height := 1080 }],
    scale := 1, width := 1920, height := 1080, currentMode := none }

/-- Fixture: a surface with a committed buffer and an uploaded texture. -/
def surfDrawn : Surface :=
  { id := 1, hasBuffer := true, texture := some 7, width := 8, height := 6 }

/-- Fixture: a surface with no committed buffer. -/
def surfNoBuffer : Surface :=
  { id := 2, hasBuffer := false, texture := none, width := 4, height := 4 }

/-- Fixture: an xdg-shell view whose single surface is drawable. -/
def viewDrawn : CgView :=
  { x := 0, y := 0, type := .xdgShell, xdgSurface := .node 0 0 surfDrawn [] }

/-- Fixture: an xdg-shell view whose single surface has no buffer. -/
def viewNoBuffer : CgView :=
  { x := 0, y := 0, type := .xdgShell, xdgSurface := .node 0 0 surfNoBuffer [] }

/-- Fixture: a view with an unrecognized content-item variant. -/
def viewUnknown : CgView :=
  { x := 0, y := 0, type := .other 42, xdgSurface := .node 0 0 surfDrawn [] }

/-- Fixture: a tick environment whose context acquisition succeeds. -/
def envOk : FrameEnv :=
  { makeCurrentOk := true, now := 5, effWidth := 640, effHeight := 480 }

/-- Fixture: a tick environment whose context acquisition fails. -/
def envFail : FrameEnv :=
  { makeCurrentOk := false, now := 5, effWidth := 640, effHeight := 480 }

/- ===================== helper lemmas ===================== -/

theorem cTrunc_intCast (n : Int) : cTrunc ((n : ℚ)) = n := by
  rw [cTrunc]
  split
  · exact Int.floor_intCast n
  · exact Int.ceil_intCast n

theorem cTrunc_intCast_mul (n k : Int) : cTrunc ((n : ℚ) * (k : ℚ)) = n * k := by
  have h : ((n : ℚ) * (k : ℚ)) = ((n * k : Int) : ℚ) := by push_cast; ring
  rw [h, cTrunc_intCast]

theorem countFrameDone_append (a b : List RenderEvent) (sid : Nat) :
    countFrameDone (a ++ b) sid = countFrameDone a sid + countFrameDone b sid := by
  simp [countFrameDone, List.countP_append]

theorem countFrameDone_render_surface (rd : RenderData) (s : Surface)
    (sx sy : Int) (sid : Nat) :
    countFrameDone (render_surface rd s sx sy) sid
      = if (s.id == sid) && drawable s then 1 else 0 := by
  rcases s with ⟨i, hb, tx, w, h⟩
  cases hb <;> cases tx <;>
    simp [render_surface, countFrameDone, isFrameDoneFor, drawable,
          List.countP_cons, List.countP_nil]

theorem countFrameDone_flatMap_render (rd : RenderData)
    (ys : List (Surface × Int × Int)) (sid : Nat) :
    countFrameDone (ys.flatMap fun y => render_surface rd y.1 y.2.1 y.2.2) sid
      = ys.countP (drawableWithId sid) := by
  induction ys with
  | nil => simp [countFrameDone]
  | cons y ys ih =>
    rw [List.flatMap_cons, countFrameDone_append, ih, List.countP_cons,
        countFrameDone_render_surface]
    simp [drawableWithId]
    omega

theorem countFrameDone_view (rd : RenderData) (v : CgView) (sid : Nat) :
    countFrameDone (view_for_each_surface v (render_surface rd)) sid
      = (viewYields v).countP (drawableWithId sid) := by
  rcases v with ⟨x, y, ty, tree⟩
  cases ty with
  | xdgShell =>
    simpa [view_for_each_surface, viewYields] using
      countFrameDone_flatMap_render rd (tree.enum 0 0) sid
  | other tag =>
    simp [view_for_each_surface, viewYields, countFrameDone, isFrameDoneFor]

theorem countFrameDone_views (env : FrameEnv) (lx ly : Int) (scale : ℚ)
    (l : List CgView) (sid : Nat) :
    countFrameDone
      (l.flatMap fun v =>
        view_for_each_surface v (render_surface (mkRenderData env lx ly scale v))) sid
      = (l.flatMap viewYields).countP (drawableWithId sid) := by
  induction l with
  | nil => simp [countFrameDone]
  | cons v l ih =>
    rw [List.flatMap_cons, countFrameDone_append, ih, List.flatMap_cons,
        List.countP_append, countFrameDone_view]

theorem run_created_le (es : List LifeEvent) : ∀ (s : ServerState),
    (s.newOutputSubscribed = true → s.createdOutputs = 0) →
    s.createdOutputs ≤ 1 → (run s es).createdOutputs ≤ 1 := by
  induction es with
  | nil => intro s _ h1; simpa [run] using h1
  | cons e es ih =>
    intro s h0 h1
    have hstep : ((step s e).newOutputSubscribed = true →
        (step s e).createdOutputs = 0) ∧ (step s e).createdOutputs ≤ 1 := by
      cases e with
      | attach d =>
        by_cases hsub : s.newOutputSubscribed = true
        · simp [step, hsub, handle_new_output, h0 hsub]
        · have hs : step s (.attach d) = s := by simp [step, hsub]
          rw [hs]; exact ⟨h0, h1⟩
      | frame => exact ⟨h0, h1⟩
      | removed =>
        by_cases hd : s.destroySubscribed = true
        · have hs : step s .removed = handle_output_destroy s := by simp [step, hd]
          rw [hs]; exact ⟨h0, h1⟩
        · have hs : step s .removed = s := by simp [step, hd]
          rw [hs]; exact ⟨h0, h1⟩
    simpa [run] using ih (step s e) hstep.1 hstep.2

/- ===================== claim theorems ===================== -/

/-- C1 (counterexample): the claim that every surface yielded by the walk
receives frame-done regardless of whether drawing was skipped is false on
the code: a surface with no committed buffer is yielded by the walk but
`render_surface` returns before `wlr_surface_send_frame_done`, so it
receives zero frame-done signals that tick. -/
theorem frameDone_skipped_for_bufferless_surface :
    ((surfNoBuffer, 0, 0) ∈ allYields [viewNoBuffer])
    ∧ countFrameDone (handle_output_frame envOk 0 0 1 [viewNoBuffer])
        surfNoBuffer.id = 0 := by
  constructor
  · simp [allYields, viewYields, viewNoBuffer, SurfaceTree.enum, enumChildren]
  · simp [handle_output_frame, envOk, view_for_each_surface, viewNoBuffer,
          SurfaceTree.enum, enumChildren, render_surface, surfNoBuffer,
          countFrameDone, isFrameDoneFor, mkRenderData]

/-- C1 (amended): per tick, the number of frame-done signals a surface id
receives equals the number of walk-yielded surfaces with that id that have a
committed buffer and an obtainable texture; in particular a surface yielded
once is signalled exactly once when it was drawn and not at all when the
draw was skipped for a missing buffer or texture. -/
theorem frameDone_count_eq_drawable_count (env : FrameEnv) (lx ly : Int)
    (scale : ℚ) (views : List CgView) (sid : Nat)
    (h : env.makeCurrentOk = true) :
    countFrameDone (handle_output_frame env lx ly scale views) sid
      = (allYields views).countP (drawableWithId sid) := by
  rw [handle_output_frame]
  simp only [h]
  rw [allYields, ← countFrameDone_views env lx ly scale views.reverse sid]
  simp [countFrameDone, List.countP_append, List.countP_cons, isFrameDoneFor]

/-- Witness for C1 (amended): a drawable surface yielded once receives
exactly one frame-done signal. -/
theorem frameDone_count_eq_drawable_count_witness :
    countFrameDone (handle_output_frame envOk 0 0 1 [viewDrawn]) surfDrawn.id
      = (allYields [viewDrawn]).countP (drawableWithId surfDrawn.id)
    ∧ (allYields [viewDrawn]).countP (drawableWithId surfDrawn.id) = 1 := by
  refine ⟨frameDone_count_eq_drawable_count envOk 0 0 1 [viewDrawn] surfDrawn.id rfl, ?_⟩
  simp [allYields, viewYields, viewDrawn, SurfaceTree.enum, enumChildren,
        List.countP_cons, drawableWithId, drawable, surfDrawn]

/-- C2: the attach handler unsubscribes the server from further device-attach
notifications after claiming the first device, so a second attach
notification is a no-op and no run of delivered notifications ever allocates
more than one Output record. -/
theorem single_output_invariant :
    (∀ (es : List LifeEvent), (run initialState es).createdOutputs ≤ 1)
    ∧ (∀ (s : ServerState) (d : Device), s.newOutputSubscribed = true →
        (step s (.attach d)).newOutputSubscribed = false
        ∧ ∀ (d2 : Device), step (step s (.attach d)) (.attach d2) = step s (.attach d)) := by
  constructor
  · intro es
    exact run_created_le es initialState (fun _ => rfl) (by simp [initialState])
  · intro s d hsub
    constructor
    · simp [step, hsub, handle_new_output]
    · intro d2
      simp [step, hsub, handle_new_output]

/-- Witness for C2: delivering two attach notifications from the initial
state allocates at most one Output, and the first attach revokes the
subscription. -/
theorem single_output_invariant_witness :
    (run initialState [.attach devA, .attach devA]).createdOutputs ≤ 1
    ∧ (step initialState (.attach devA)).newOutputSubscribed = false :=
  ⟨single_output_invariant.1 [.attach devA, .attach devA],
   (single_output_invariant.2 initialState devA rfl).1⟩

/-- C4: on a device-removed notification in the Active state the handler
unlinks both signal subscriptions, clears the server's output reference
(freeing the record), and terminates the event loop — a normal shutdown
path. -/
theorem output_destroy_teardown (s : ServerState)
    (hd : s.destroySubscribed = true) (ho : s.output.isSome = true) :
    (step s .removed).frameSubscribed = false
    ∧ (step s .removed).destroySubscribed = false
    ∧ (step s .removed).output = none
    ∧ (step s .removed).terminations = s.terminations + 1 := by
  simp [step, hd, handle_output_destroy]

/-- Witness for C4: removing the device after it attached tears the output
down and terminates once. -/
theorem output_destroy_teardown_witness :
    (step (step initialState (.attach devA)) .removed).output = none
    ∧ (step (step initialState (.attach devA)) .removed).terminations
        = (step initialState (.attach devA)).terminations + 1 := by
  have h := output_destroy_teardown (step initialState (.attach devA)) rfl rfl
  exact ⟨h.2.2.1, h.2.2.2⟩

/-- C5: teardown is idempotent under signal delivery — the destroy handler
unlinks its own subscription, so a second device-removed notification after
the transition is a no-op and the event loop is terminated exactly once. -/
theorem output_destroy_idempotent (s : ServerState)
    (hd : s.destroySubscribed = true) :
    step (step s .removed) .removed = step s .removed
    ∧ (step (step s .removed) .removed).terminations = s.terminations + 1 := by
  constructor
  · simp [step, hd, handle_output_destroy]
  · simp [step, hd, handle_output_destroy]

/-- Witness for C5: delivering device-removed twice after attach terminates
exactly once. -/
theorem output_destroy_idempotent_witness :
    step (step (step initialState (.attach devA)) .removed) .removed
      = step (step initialState (.attach devA)) .removed
    ∧ (step (step (step initialState (.attach devA)) .removed) .removed).terminations
        = (step initialState (.attach devA)).terminations + 1 :=
  output_destroy_idempotent (step initialState (.attach devA)) rfl

/-- C8: when the device advertises a non-empty mode list, the attach handler
sets the last-advertised mode on the device. -/
theorem last_advertised_mode_selected (s : ServerState) (d : Device)
    (hsub : s.newOutputSubscribed = true) (h : d.modes ≠ []) :
    ((step s (.attach d)).output.map fun o => o.wlrOutput.currentMode)
      = some (some (d.modes.getLast h)) := by
  simp [step, hsub, handle_new_output, List.getLast?_eq_getLast _ h, setMode]

/-- Witness for C8: a device advertising modes [720p, 1080p] gets the 1080p
mode selected. -/
theorem last_advertised_mode_selected_witness :
    ((step initialState (.attach devA)).output.map fun o => o.wlrOutput.currentMode)
      = some (some { width := 1920, height := 1080 }) := by
  have h := last_advertised_mode_selected initialState devA rfl
    (by simp [devA])
  exact h.trans rfl

theorem flatMap_split {α β : Type} (f : α → List β) :
    ∀ (l : List α) (i : Nat) (h : i < l.length),
      ∃ pre, l.flatMap f
        = pre ++ f (l.get ⟨i, h⟩) ++ (l.drop (i + 1)).flatMap f := by
  intro l
  induction l with
  | nil => intro i h; simp at h
  | cons x xs ih =>
    intro i h
    cases i with
    | zero => exact ⟨[], by simp⟩
    | succ n =>
      obtain ⟨pre, hp⟩ := ih n (by simpa using h)
      exact ⟨f x ++ pre, by simp [hp]⟩

theorem stackOf_eq_reverse (inserts : List CgView) :
    stackOf inserts = inserts.reverse := by
  have h : ∀ (l acc : List CgView),
      l.foldl (fun st v => insertView v st) acc = l.reverse ++ acc := by
    intro l
    induction l with
    | nil => intro acc; simp
    | cons x xs ih => intro acc; simp [insertView, ih]
  simpa [stackOf] using h inserts []

/-- C3: views are painted in insertion order of the stack (the list is kept
newest-first and iterated in reverse), so for views A inserted before B the
whole surface block of A appears in the tick's trace before the whole
surface block of B: the most recently raised view paints last and appears
frontmost. -/
theorem paint_order_reverse_insertion (inserts : List CgView) (a b : Nat)
    (hab : a < b) (hb : b < inserts.length) (env : FrameEnv) (lx ly : Int)
    (scale : ℚ) (h : env.makeCurrentOk = true) :
    ∃ pre mid post,
      handle_output_frame env lx ly scale (stackOf inserts)
        = pre
          ++ view_for_each_surface (inserts.get ⟨a, Nat.lt_trans hab hb⟩)
               (render_surface
                 (mkRenderData env lx ly scale (inserts.get ⟨a, Nat.lt_trans hab hb⟩)))
          ++ mid
          ++ view_for_each_surface (inserts.get ⟨b, hb⟩)
               (render_surface (mkRenderData env lx ly scale (inserts.get ⟨b, hb⟩)))
          ++ post := by
  have ha : a < inserts.length := Nat.lt_trans hab hb
  obtain ⟨pre1, h1⟩ := flatMap_split
    (fun v => view_for_each_surface v (render_surface (mkRenderData env lx ly scale v)))
    inserts a ha
  have hlen : b - (a + 1) < (inserts.drop (a + 1)).length := by
    rw [List.length_drop]; omega
  obtain ⟨pre2, h2⟩ := flatMap_split
    (fun v => view_for_each_surface v (render_surface (mkRenderData env lx ly scale v)))
    (inserts.drop (a + 1)) (b - (a + 1)) hlen
  have hget : (inserts.drop (a + 1)).get ⟨b - (a + 1), hlen⟩ = inserts.get ⟨b, hb⟩ := by
    simp only [List.get_eq_getElem, List.getElem_drop]
    congr 1
    omega
  rw [hget] at h2
  refine ⟨.rendererBegin env.effWidth env.effHeight
            :: .clear (3/10) (3/10) (3/10) 1 :: pre1,
          pre2,
          ((inserts.drop (a + 1)).drop (b - (a + 1) + 1)).flatMap
            (fun v => view_for_each_surface v (render_surface (mkRenderData env lx ly scale v)))
            ++ [.rendererEnd, .swapBuffers], ?_⟩
  rw [handle_output_frame]
  simp only [h, Bool.true_eq_false, if_false]
  rw [stackOf_eq_reverse, List.reverse_reverse, h1, h2]
  simp [List.append_assoc]

/-- Witness for C3: with vNoBuffer inserted before vDrawn, the trace carries
vNoBuffer's surface block before vDrawn's. -/
theorem paint_order_reverse_insertion_witness :
    ∃ pre mid post,
      handle_output_frame envOk 0 0 1 (stackOf [viewNoBuffer, viewDrawn])
        = pre
          ++ view_for_each_surface viewNoBuffer
               (render_surface (mkRenderData envOk 0 0 1 viewNoBuffer))
          ++ mid
          ++ view_for_each_surface viewDrawn
               (render_surface (mkRenderData envOk 0 0 1 viewDrawn))
          ++ post := by
  have h := paint_order_reverse_insertion [viewNoBuffer, viewDrawn] 0 1
    (by omega) (by simp) envOk 0 0 1 rfl
  simpa using h

/-- C6 (counterexample): with device scale 3/2, layout origin (0,0), view
position (0,0) and surface offset (1,0), the code places the box at x = 1
(the C double-to-int conversion truncates 1.5), not at the exact product
(lx+vx+sx)*s = 3/2 that the claim states. -/
theorem placement_box_truncation_cex :
    render_surface
        { layoutX := 0, layoutY := 0, scale := 3/2, viewX := 0, viewY := 0,
          whenTs := 0 }
        { id := 1, hasBuffer := true, texture := some 7, width := 1, height := 1 }
        1 0
      = [.draw 7 { x := 1, y := 0, width := 1, height := 1 },
         .frameDone 1 0]
    ∧ ¬ (((1 : Int) : ℚ) = ((0 + 0 + 1 : Int) : ℚ) * (3/2 : ℚ)) := by
  constructor
  · norm_num [render_surface, cTrunc]
  · norm_num

/-- C6 (amended): a drawn surface's placement rectangle is the truncation
toward zero of ((lx+vx+sx)*s, (ly+vy+sy)*s, w*s, h*s); whenever the scale is
an integer the truncation is exact, so in particular a surface offset of
(0,0) with integer scale yields physical placement at exactly
((lx+vx)*s, (ly+vy)*s). -/
theorem placement_box_formula (rd : RenderData) (surface : Surface)
    (sx sy : Int) (tex : Nat) (hb : surface.hasBuffer = true)
    (ht : surface.texture = some tex) :
    render_surface rd surface sx sy =
      [.draw tex
        { x := cTrunc (((rd.layoutX + rd.viewX + sx : Int) : ℚ) * rd.scale)
          y := cTrunc (((rd.layoutY + rd.viewY + sy : Int) : ℚ) * rd.scale)
          width := cTrunc ((surface.width : ℚ) * rd.scale)
          height := cTrunc ((surface.height : ℚ) * rd.scale) },
       .frameDone surface.id rd.whenTs]
    ∧ ∀ (n k : Int), rd.scale = (k : ℚ) → cTrunc ((n : ℚ) * rd.scale) = n * k := by
  constructor
  · simp [render_surface, hb, ht]
  · intro n k hk
    rw [hk, cTrunc_intCast_mul]

/-- Witness for C6 (amended): layout origin (3,4), view at (10,20), offset
(1,2), committed size 8×6, integer scale 2 places the box exactly at
(28, 52) with size 16×12. -/
theorem placement_box_formula_witness :
    render_surface
        { layoutX := 3, layoutY := 4, scale := 2, viewX := 10, viewY := 20,
          whenTs := 9 } surfDrawn 1 2
      = [.draw 7 { x := 28, y := 52, width := 16, height := 12 },
         .frameDone 1 9] := by
  have h := placement_box_formula
    { layoutX := 3, layoutY := 4, scale := 2, viewX := 10, viewY := 20,
      whenTs := 9 } surfDrawn 1 2 7 rfl rfl
  rw [h.1]
  norm_num [surfDrawn, cTrunc]

/-- C7: if the backend refuses to make the rendering context current, the
frame handler aborts the tick wholesale — the trace is a single debug log
(no clear, draw, frame-done or swap), lifecycle state is untouched by frame
notifications (not fatal), and a later tick whose context acquisition
succeeds proceeds into the render pass unaffected. -/
theorem make_current_failure_aborts_tick (env : FrameEnv) (lx ly : Int)
    (scale : ℚ) (views : List CgView) (h : env.makeCurrentOk = false) :
    handle_output_frame env lx ly scale views
      = [.logDebug "Cannot make damage output current"]
    ∧ (∀ s : ServerState, step s .frame = s)
    ∧ (∀ env2 : FrameEnv, env2.makeCurrentOk = true →
        ∃ rest, handle_output_frame env2 lx ly scale views
          = .rendererBegin env2.effWidth env2.effHeight :: rest) := by
  refine ⟨by simp [handle_output_frame, h], fun s => rfl, ?_⟩
  intro env2 h2
  refine ⟨.clear (3/10) (3/10) (3/10) 1 ::
    ((views.reverse.flatMap fun view =>
        view_for_each_surface view (render_surface (mkRenderData env2 lx ly scale view)))
      ++ [.rendererEnd, .swapBuffers]), ?_⟩
  simp [handle_output_frame, h2]

/-- Witness for C7: a failing tick logs and does nothing else; frame events
leave the server state unchanged. -/
theorem make_current_failure_aborts_tick_witness :
    handle_output_frame envFail 0 0 1 [viewDrawn]
      = [.logDebug "Cannot make damage output current"]
    ∧ step initialState .frame = initialState := by
  have h := make_current_failure_aborts_tick envFail 0 0 1 [viewDrawn] rfl
  exact ⟨h.1, h.2.1 initialState⟩

mutual

theorem mem_enum_of_mem_surfaces : ∀ (t : SurfaceTree) (ox oy : Int) (s : Surface),
    s ∈ t.surfaces → ∃ sx sy, (s, sx, sy) ∈ t.enum ox oy
  | .node dx dy s0 children, ox, oy, s, hm => by
    rw [SurfaceTree.surfaces] at hm
    rw [SurfaceTree.enum]
    rcases List.mem_cons.mp hm with h | h
    · exact ⟨ox + dx, oy + dy, by simp [h]⟩
    · obtain ⟨sx, sy, hin⟩ := mem_enumChildren_of_mem children (ox + dx) (oy + dy) s h
      exact ⟨sx, sy, List.mem_cons_of_mem _ hin⟩

theorem mem_enumChildren_of_mem : ∀ (cs : List SurfaceTree) (ox oy : Int) (s : Surface),
    s ∈ surfacesList cs → ∃ sx sy, (s, sx, sy) ∈ enumChildren cs ox oy
  | [], _, _, s, hm => by rw [surfacesList] at hm; cases hm
  | t :: rest, ox, oy, s, hm => by
    rw [surfacesList] at hm
    rw [enumChildren]
    rcases List.mem_append.mp hm with h | h
    · obtain ⟨sx, sy, hin⟩ := mem_enum_of_mem_surfaces t ox oy s h
      exact ⟨sx, sy, List.mem_append_left _ hin⟩
    · obtain ⟨sx, sy, hin⟩ := mem_enumChildren_of_mem rest ox oy s h
      exact ⟨sx, sy, List.mem_append_right _ hin⟩

end

/-- C9: the surface walk given a view with an unrecognized content-item
variant performs zero visitor invocations and records exactly one
error-level diagnostic (it stays a total function — no crash); for the
supported xdg-shell variant it walks the whole surface tree, visiting every
surface of the tree. -/
theorem surface_walk_dispatch :
    (∀ (view : CgView) (tag : Int)
       (iterator : Surface → Int → Int → List RenderEvent),
       view.type = .other tag →
       view_for_each_surface view iterator = [.logError "Unrecognized view type"])
    ∧ (∀ (view : CgView) (iterator : Surface → Int → Int → List RenderEvent),
       view.type = .xdgShell →
       view_for_each_surface view iterator
         = (view.xdgSurface.enum 0 0).flatMap fun y => iterator y.1 y.2.1 y.2.2)
    ∧ (∀ (t : SurfaceTree) (s : Surface), s ∈ t.surfaces →
        ∃ sx sy, (s, sx, sy) ∈ t.enum 0 0) := by
  refine ⟨?_, ?_, ?_⟩
  · intro view tag iterator hty
    simp [view_for_each_surface, hty]
  · intro view iterator hty
    simp [view_for_each_surface, hty]
  · intro t s hm
    exact mem_enum_of_mem_surfaces t 0 0 s hm

/-- Witness for C9: the unknown-variant view yields only the error log; the
xdg view's walk is the tree traversal and its surface is visited. -/
theorem surface_walk_dispatch_witness :
    view_for_each_surface viewUnknown (fun _ _ _ => [])
      = [.logError "Unrecognized view type"]
    ∧ view_for_each_surface viewDrawn (fun _ _ _ => [])
      = (viewDrawn.xdgSurface.enum 0 0).flatMap
          (fun y => (fun _ _ _ => ([] : List RenderEvent)) y.1 y.2.1 y.2.2)
    ∧ ∃ sx sy, (surfDrawn, sx, sy) ∈ (SurfaceTree.node 0 0 surfDrawn []).enum 0 0 := by
  refine ⟨surface_walk_dispatch.1 viewUnknown 42 _ rfl,
          surface_walk_dispatch.2.1 viewDrawn _ rfl,
          surface_walk_dispatch.2.2 (SurfaceTree.node 0 0 surfDrawn []) surfDrawn ?_⟩
  simp [SurfaceTree.surfaces, surfacesList]

theorem frameDone_timestamp_render_surface (rd : RenderData) (s : Surface)
    (sx sy : Int) (sid : Nat) (t : Int)
    (h : RenderEvent.frameDone sid t ∈ render_surface rd s sx sy) :
    t = rd.whenTs := by
  rcases s with ⟨i, hb, tx, w, hh⟩
  cases hb <;> cases tx <;> simp [render_surface] at h
  exact h.2

theorem frameDone_timestamp_view (rd : RenderData) (v : CgView) (sid : Nat)
    (t : Int)
    (h : RenderEvent.frameDone sid t
          ∈ view_for_each_surface v (render_surface rd)) :
    t = rd.whenTs := by
  rcases v with ⟨x, y, ty, tree⟩
  cases ty with
  | xdgShell =>
    simp only [view_for_each_surface, List.mem_flatMap] at h
    obtain ⟨y0, _, hmem⟩ := h
    exact frameDone_timestamp_render_surface rd _ _ _ sid t hmem
  | other tag =>
    simp [view_for_each_surface] at h

/-- C10: the frame handler reads CLOCK_MONOTONIC once per tick and every
frame-done signal delivered during that tick carries exactly that
timestamp, so no two surfaces presented in one tick receive different
timestamps. -/
theorem frame_done_single_timestamp (env : FrameEnv) (lx ly : Int)
    (scale : ℚ) (views : List CgView) (sid : Nat) (t : Int)
    (h : RenderEvent.frameDone sid t
          ∈ handle_output_frame env lx ly scale views) :
    t = env.now := by
  rw [handle_output_frame] at h
  by_cases hm : env.makeCurrentOk = false
  · simp [hm] at h
  · simp [hm] at h
    obtain ⟨v, _, hmem⟩ := h
    have ht := frameDone_timestamp_view (mkRenderData env lx ly scale v) v sid t hmem
    simpa [mkRenderData] using ht

/-- Witness for C10: the frame-done signal delivered for the drawn surface
carries the tick's timestamp. -/
theorem frame_done_single_timestamp_witness :
    (RenderEvent.frameDone surfDrawn.id 5
       ∈ handle_output_frame envOk 0 0 1 [viewDrawn])
    ∧ (5 : Int) = envOk.now := by
  have hmem : RenderEvent.frameDone surfDrawn.id 5
      ∈ handle_output_frame envOk 0 0 1 [viewDrawn] := by
    simp [handle_output_frame, envOk, viewDrawn, view_for_each_surface,
          SurfaceTree.enum, enumChildren, render_surface, surfDrawn, mkRenderData]
  exact ⟨hmem,
    frame_done_single_timestamp envOk 0 0 1 [viewDrawn] surfDrawn.id 5 hmem⟩

end Cage
